import Mathlib

/-!
Shallow embedding of the DART sequence-generation and run-orchestration
scripts (`generate_sequence_from_config.py`, `preprocess_soils.py`,
`run_dart_sequence.py`).

Modelling conventions:
- a position file is the list of its lines, each line given by the list of
  its whitespace-separated tokens (the result of `line.strip().split()`);
- Python `float` parsing is an explicit parameter `pf : String → Option ℚ`
  (a `none` result models a `ValueError`);
- the `random` module's draws are explicit draw functions passed in, one per
  call site, indexed by trial and entity number;
- fallible computations return `Except String _`, the error string naming the
  Python exception;
- the directory tree touched by the orchestrator is a map from path names to
  optional directory contents, and the outcome of each external subprocess is
  an explicit input.
-/

/-- Test performed by Python `line.strip().startswith("0")` on a line given by
its whitespace-separated tokens: the stripped line is nonempty and its first
character (equivalently, the first character of its first token) is the digit
zero. -/
def startsWithZeroChar (line : List String) : Bool :=
  match line with
  | [] => false
  | t :: _ => t.data.head? == some '0'

/-- Embeds `count_trees_in_position_file` (generate_sequence_from_config.py,
lines 71-80): counts the lines whose stripped text starts with the digit
zero, with no condition on the number of fields. -/
def count_trees_in_position_file (lines : List (List String)) : Nat :=
  (lines.filter (fun line => startsWithZeroChar line)).length

/-- Embeds `read_scale_from_positions` (generate_sequence_from_config.py,
lines 57-69): collects `float(values[4])` for every line that starts with the
digit zero and has at least 7 tokens.  A `float` parse failure (`pf _ = none`)
raises, is caught by the surrounding `except` handler, and the scales
accumulated so far are returned. -/
def read_scale_from_positions (pf : String → Option ℚ) : List (List String) → List ℚ
  | [] => []
  | line :: rest =>
    if startsWithZeroChar line && decide (7 ≤ line.length) then
      match pf (line.getD 4 ("")) with
      | some v => v :: read_scale_from_positions pf rest
      | none => []
    else
      read_scale_from_positions pf rest

/-- Embeds `generate_random_values` (generate_sequence_from_config.py, lines
82-113).  `cabDraw i j` and `cwDraw i j` are the `rd.random()` draws for tree
`i`, trial `j`; `soilDraw t` is the `rd.uniform(290, 310)` draw for trial `t`;
`leafDraw t i` and `trunkDraw t i` are the `rd.uniform(1, 10)` and
`rd.uniform(0.5, 5)` draws for trial `t`, tree `i`.  Returns
`(cab_values, cw_values, temp_values)`; each `temp_values` row is the soil
temperature followed by the `num_trees` leaf temperatures and then the
`num_trees` trunk temperatures. -/
def generate_random_values (nbr_simulation num_trees : Nat)
    (cabDraw cwDraw : Nat → Nat → ℚ) (soilDraw : Nat → ℚ)
    (leafDraw trunkDraw : Nat → Nat → ℚ) :
    List (List ℚ) × List (List ℚ) × List (List ℚ) :=
  let cab_values := (List.range num_trees).map (fun i =>
    (List.range nbr_simulation).map (fun j => cabDraw i j * 70 + 20))
  let cw_values := (List.range num_trees).map (fun i =>
    (List.range nbr_simulation).map (fun j => cwDraw i j * (4 / 100) + 1 / 100))
  let temp_values := (List.range nbr_simulation).map (fun t =>
    let soil := soilDraw t
    [soil] ++ (List.range num_trees).map (fun i => soil - leafDraw t i)
      ++ (List.range num_trees).map (fun i => soil - trunkDraw t i))
  (cab_values, cw_values, temp_values)

/-- Test performed by Python `f.endswith(".txt")` on a file name. -/
def endsWithTxt (name : String) : Bool :=
  List.isSuffixOf ['.', 't', 'x', 't'] name.data

/-- Embeds `check_soil_band_files` (preprocess_soils.py, lines 6-49).
`folders` lists the subdirectories of the soil root together with the names of
the files each contains; `spectral` is the band dictionary produced by
`get_spectral_intervals` (band number, spectralDartMode).  A folder qualifies
iff its ".txt" file count equals the number of declared bands; a mismatch is
reported with a warning and skipped. -/
def check_soil_band_files (folders : List (String × List String))
    (spectral : List (Nat × Nat)) : List String :=
  if spectral.isEmpty then []
  else
    ((folders.filter (fun f =>
      (f.2.filter (fun n => endsWithTxt n)).length == spectral.length)).map
        (fun f => f.1))

/-- Embeds `get_available_soils` (run_dart_sequence.py, lines 216-251; the
copy at generate_sequence_from_config.py, lines 9-55, behaves identically when
the `preprocess_soils` import succeeds, which it does in this repository).
`soilDirOk` is the `os.path.exists` / `os.path.isdir` check on the soil-factor
path; `spectral` is the result of `get_spectral_intervals` (`none` when
phase.xml is missing, unparsable, or declares no bands — that function never
returns an empty dictionary). -/
def get_available_soils (multiSol : Bool) (soilDirOk : Bool)
    (spectral : Option (List (Nat × Nat)))
    (folders : List (String × List String)) : Option (List String) :=
  if !multiSol then none
  else if !soilDirOk then none
  else
    match spectral with
    | none => none
    | some sp =>
      let valid_soils := check_soil_band_files folders sp
      if valid_soils.isEmpty then none else some valid_soils

/-- Embeds lines 139-145 of `create_sequence_xml`: the starting index offset
for LambertianMulti elements.  `soils` is the value `get_available_soils`
returns when multi-soil mode is on (the Python code only calls it under that
guard; the parameter is ignored otherwise). -/
def compute_offset (multiSol : Bool) (soils : Option (List String)) : Nat :=
  if multiSol then
    match soils with
    | some l => if 0 < l.length then l.length else 0
    | none => 0
  else 0

/-- One `DartSequencerDescriptorEntry` element: its `args` attribute kept as
the list of values that Python joins with ";", its `propertyName`, and its
`type` attribute. -/
structure Entry where
  args : List String
  propertyName : String
  entryType : String
  deriving DecidableEq

/-- One `DartSequencerDescriptorGroup` element. -/
structure SeqGroup where
  groupName : String
  entries : List Entry
  deriving DecidableEq

/-- Embeds the scale-entry loop of `create_sequence_xml` (lines 166-176),
run over the index list `range num_trees`.  For each tree index `i` Python
reads `scales[i]` — an `IndexError` when `i` is out of range, which aborts the
whole generation — and emits three entries (axes x, y, z) sharing one
deviation list of `nbr` values `scales[i] * (0.8 + 0.4 * rd.random())`. -/
def scale_entries (fmt : ℚ → String) (scales : List ℚ) (nbr : Nat)
    (draw : Nat → Nat → ℚ) : List Nat → Except String (List Entry)
  | [] => Except.ok []
  | i :: rest =>
    match scales[i]? with
    | none => Except.error ("IndexError")
    | some s =>
      let dev := (List.range nbr).map (fun j =>
        fmt (s * (8 / 10 + 4 / 10 * draw i j)))
      let axisEntry := fun (axis : String) =>
        Entry.mk dev ("object_3d.ObjectList.Object[" ++ toString i ++
          "].GeometricProperties.ScaleProperties." ++ axis ++ "scale")
          ("enumerate")
      match scale_entries fmt scales nbr draw rest with
      | Except.error e => Except.error e
      | Except.ok tail =>
        Except.ok ([axisEntry ("x"), axisEntry ("y"), axisEntry ("z")] ++ tail)

/-- Embeds the soil-temperature entry (lines 181-186): `temp_list[0]` of every
trial, joined across trials. -/
def soil_temp_entry (fmt : ℚ → String) (temp_values : List (List ℚ)) : Entry :=
  Entry.mk (temp_values.map (fun tl => fmt (tl.getD 0 0)))
    ("Coeff_diff.Temperatures.ThermalFunction[0].meanT") ("enumerate")

/-- Embeds the leaf-temperature entries (lines 190-196): tree `i` takes
`temp_list[i + 1]` of every trial, at ThermalFunction index `1 + 2 * i`. -/
def leaf_temp_entries (fmt : ℚ → String) (temp_values : List (List ℚ))
    (num_trees : Nat) : List Entry :=
  (List.range num_trees).map (fun i =>
    Entry.mk (temp_values.map (fun tl => fmt (tl.getD (i + 1) 0)))
      ("Coeff_diff.Temperatures.ThermalFunction[" ++ toString (1 + 2 * i) ++
        "].meanT")
      ("enumerate"))

/-- Embeds the trunk-temperature entries (lines 198-204): tree `i` takes
`temp_list[i + num_trees + 1]` of every trial, at ThermalFunction index
`2 + 2 * i`. -/
def trunk_temp_entries (fmt : ℚ → String) (temp_values : List (List ℚ))
    (num_trees : Nat) : List Entry :=
  (List.range num_trees).map (fun i =>
    Entry.mk (temp_values.map (fun tl => fmt (tl.getD (i + num_trees + 1) 0)))
      ("Coeff_diff.Temperatures.ThermalFunction[" ++ toString (2 + 2 * i) ++
        "].meanT")
      ("enumerate"))

/-- Embeds the chlorophyll entries (lines 207-216): tree `i` uses
`cab_values[i]` and LambertianMulti index `i + offset`. -/
def cab_entries (fmt : ℚ → String) (cab_values : List (List ℚ))
    (num_trees offset : Nat) : List Entry :=
  (List.range num_trees).map (fun i =>
    Entry.mk ((cab_values.getD i []).map (fun q => fmt q))
      ("Coeff_diff.Surfaces.LambertianMultiFunctions.LambertianMulti[" ++
        toString (i + offset) ++
        "].Lambertian.ProspectExternalModule.ProspectExternParameters.Cab")
      ("enumerate"))

/-- Embeds the water-thickness entries (lines 219-228): tree `i` uses
`cw_values[i]` and LambertianMulti index `i + offset`. -/
def cw_entries (fmt : ℚ → String) (cw_values : List (List ℚ))
    (num_trees offset : Nat) : List Entry :=
  (List.range num_trees).map (fun i =>
    Entry.mk ((cw_values.getD i []).map (fun q => fmt q))
      ("Coeff_diff.Surfaces.LambertianMultiFunctions.LambertianMulti[" ++
        toString (i + offset) ++
        "].Lambertian.ProspectExternalModule.ProspectExternParameters.Cw")
      ("enumerate"))

/-- Embeds the soil group (lines 230-261): present only when multi-soil mode
is on and discovery returned a nonempty list; holds the soil-identity entry
and the phase-index entry, each with one value per variant. -/
def soil_groups (multiSol : Bool) (soils : Option (List String)) : List SeqGroup :=
  if multiSol then
    match soils with
    | some l =>
      if l.isEmpty then []
      else
        let soil_identifiers := l.map (fun s => "soil_" ++ s)
        let phase_indices := (List.range l.length).map (fun i => toString i)
        [SeqGroup.mk ("group_soil")
          [Entry.mk soil_identifiers ("Maket.Soil.OpticalPropertyLink.ident")
            ("enumerate"),
           Entry.mk phase_indices ("Maket.Soil.OpticalPropertyLink.indexFctPhase")
            ("enumerate")]]
    | none => []
  else []

/-- Configuration keys of config.json read by `create_sequence_xml`. -/
structure Config where
  nbr_of_sequence : Nat
  scale : Bool
  soil_temperature : Bool
  tree_temperature : Bool
  chlorophyl : Bool
  water_thickness : Bool
  multi_sol : Bool

/-- Attribute bag of the static `DartSequencerPreferences` block (lines
263-301). -/
def dart_sequencer_preferences : List (String × String) :=
  [("atmosphereMaketLaunched", "true"), ("dartLaunched", "true"),
   ("deleteAll", "false"), ("deleteAtmosphere", "false"),
   ("deleteAtmosphereMaket", "false"), ("deleteBandFolder", "false"),
   ("deleteDartLut", "false"), ("deleteDartSequenceur", "false"),
   ("deleteDartTxt", "false"), ("deleteDirection", "false"),
   ("deleteInputs", "false"), ("deleteLibPhase", "false"),
   ("deleteMaket", "false"), ("deleteMaketTreeResults", "false"),
   ("deletePlyFolder", "false"), ("deleteScnFiles", "false"),
   ("deleteTreePosition", "false"), ("deleteTriangles", "false"),
   ("demGeneratorLaunched", "false"), ("directionLaunched", "false"),
   ("displayEnabled", "true"), ("hapkeLaunched", "false"),
   ("individualDisplayEnabled", "false"), ("maketLaunched", "true"),
   ("numberOfEnumerateValuesDisplayed", "1000"),
   ("numberParallelThreads", "4"), ("phaseLaunched", "true"),
   ("prospectLaunched", "true"), ("triangleFileProcessorLaunched", "true"),
   ("useBroadBand", "true"), ("useSceneSpectra", "true"),
   ("vegetationLaunched", "true"), ("zippedResults", "false")]

/-- Attribute bag of the static `DartLutPreferences` block (lines 303-328). -/
def dart_lut_preferences : List (String × String) :=
  [("addedDirection", "false"), ("atmosToa", "false"),
   ("atmosToaOrdre", "false"), ("coupl", "true"), ("fluorescence", "true"),
   ("generateLUT", "false"), ("iterx", "true"), ("luminance", "true"),
   ("maketCoverage", "false"), ("ordre", "true"), ("otherIter", "true"),
   ("phiMax", ""), ("phiMin", ""), ("productsPerType", "false"),
   ("reflectance", "true"), ("sensor", "true"), ("storeIndirect", "false"),
   ("thetaMax", ""), ("thetaMin", ""), ("toa", "true")]

/-- Generated descriptor document: its groups in order, plus the two static
preference blocks. -/
structure SequenceDoc where
  groups : List SeqGroup
  sequencerPreferences : List (String × String)
  lutPreferences : List (String × String)
  deriving DecidableEq

/-- Embeds `create_sequence_xml` (generate_sequence_from_config.py, lines
115-339).  `lines` is the content of the position file; `fmt` models the
Python `str()` formatting of a float for embedding in an `args` attribute;
`soils` is the value
`get_available_soils` returns for this configuration (Python calls it twice
with the same arguments against the same filesystem, so both calls agree);
the draw functions model the `rd` calls at each site; `scaleDraw i j` is the
`rd.random()` draw in the scale-deviation list of tree `i`, trial `j`.
Returns the generated document, or the Python exception aborting the
generation. -/
def create_sequence_xml (cfg : Config) (lines : List (List String))
    (pf : String → Option ℚ) (fmt : ℚ → String)
    (soils : Option (List String))
    (cabDraw cwDraw : Nat → Nat → ℚ) (soilDraw : Nat → ℚ)
    (leafDraw trunkDraw scaleDraw : Nat → Nat → ℚ) :
    Except String SequenceDoc :=
  let nbr := cfg.nbr_of_sequence
  let num_trees := count_trees_in_position_file lines
  if num_trees = 0 then Except.error ("No trees found in position file!")
  else
    let rv := generate_random_values nbr num_trees cabDraw cwDraw soilDraw
      leafDraw trunkDraw
    let cab_values := rv.1
    let cw_values := rv.2.1
    let temp_values := rv.2.2
    let scales := if cfg.scale then read_scale_from_positions pf lines else []
    let offset := compute_offset cfg.multi_sol soils
    let scaleRes : Except String (List Entry) :=
      if cfg.scale && !scales.isEmpty then
        scale_entries fmt scales nbr scaleDraw (List.range num_trees)
      else Except.ok []
    match scaleRes with
    | Except.error e => Except.error e
    | Except.ok sEntries =>
      let tempEntries :=
        (if cfg.soil_temperature then [soil_temp_entry fmt temp_values] else []) ++
        (if cfg.tree_temperature then
          leaf_temp_entries fmt temp_values num_trees ++
            trunk_temp_entries fmt temp_values num_trees
         else [])
      let cabE := if cfg.chlorophyl then
          cab_entries fmt cab_values num_trees offset
        else []
      let cwE := if cfg.water_thickness then
          cw_entries fmt cw_values num_trees offset
        else []
      let group1 := SeqGroup.mk ("group1") (sEntries ++ tempEntries ++ cabE ++ cwE)
      Except.ok (SequenceDoc.mk ([group1] ++ soil_groups cfg.multi_sol soils)
        dart_sequencer_preferences dart_lut_preferences)

/-- Outcome of processing one soil variant inside the multi-soil loop of
`run_for_all_soils` (run_dart_sequence.py, lines 375-422): each of the three
guarded steps can fail by its return value (the loop handles each and moves to
the next variant), or an uncaught exception can be raised somewhere during the
iteration (nothing in the loop catches one). -/
inductive SoilOutcome where
  | updateFail
  | simFail
  | seqFail
  | success
  | raises
  deriving DecidableEq

/-- Embeds the per-variant loop of `run_for_all_soils` (lines 375-422),
threading the `all_successful` flag.  Returns `none` when an exception escapes
an iteration (it then propagates out of the whole function), otherwise the
per-variant success records in order together with the final flag. -/
def soil_loop : Bool → List SoilOutcome → Option (List Bool × Bool)
  | acc, [] => some ([], acc)
  | acc, o :: rest =>
    match o with
    | SoilOutcome.raises => none
    | SoilOutcome.success =>
      (soil_loop acc rest).map (fun p => (true :: p.1, p.2))
    | _ => (soil_loop false rest).map (fun p => (false :: p.1, p.2))

/-- Observable result of the multi-soil branch of `run_for_all_soils`:
how many times `restore_original_maket_xml` ran, whether the final
`check_and_fix_sequence_folders` sweep ran, the per-variant success records,
and `some all_successful` — or `none` when an exception propagated out. -/
structure OrchResult where
  restoreCalls : Nat
  sweepRan : Bool
  records : List Bool
  result : Option Bool
  deriving DecidableEq

/-- Embeds the multi-soil branch of `run_for_all_soils` (run_dart_sequence.py,
lines 367-436), entered when discovery returned a nonempty variant list: the
loop runs over the variants; after it, `restore_original_maket_xml` (line 425)
and `check_and_fix_sequence_folders` (line 428) run once each and
`all_successful` is returned.  There is no try/finally: when an exception
escapes an iteration it propagates out of the function at that point, so
neither the restore nor the sweep runs. -/
def run_for_all_soils_multi (outcomes : List SoilOutcome) : OrchResult :=
  match soil_loop true outcomes with
  | none => OrchResult.mk 0 false [] none
  | some p => OrchResult.mk 1 true p.1 (some p.2)

/-- Fate of the child process launched by `run_sequence`: the 30-minute wait
expires, some other exception is raised, or the wait returns a code. -/
inductive SeqEvent where
  | timeout
  | errored
  | completed (code : Nat)
  deriving DecidableEq

/-- Embeds the tail of `run_sequence` (run_dart_sequence.py, lines 196-214):
a `TimeoutExpired` after the 30-minute budget kills the child and returns 1,
any other exception also returns 1, and a normal wait returns the child's
code. -/
def run_sequence_code : SeqEvent → Nat
  | SeqEvent.timeout => 1
  | SeqEvent.errored => 1
  | SeqEvent.completed c => c

/-- Maps one variant's step results (run_dart_sequence.py, lines 379-419) to
its loop outcome: `update_maket_xml_soil` returning False skips the variant,
a nonzero `run_simulation` code skips the rest of the iteration, a nonzero
`run_sequence` code records a failure, and otherwise the variant succeeds. -/
def variant_outcome (updateOk : Bool) (simCode seqCode : Nat) : SoilOutcome :=
  if !updateOk then SoilOutcome.updateFail
  else if simCode ≠ 0 then SoilOutcome.simFail
  else if seqCode ≠ 0 then SoilOutcome.seqFail
  else SoilOutcome.success

/-- Composition of the multi-soil loop with the per-variant step mapping: each
event triple gives (`update_maket_xml_soil` result, `run_simulation` code,
fate of the `run_sequence` child). -/
def orchestrate_events (events : List (Bool × Nat × SeqEvent)) : OrchResult :=
  run_for_all_soils_multi (events.map (fun e =>
    variant_outcome e.1 e.2.1 (run_sequence_code e.2.2)))

/-- Directory-tree fragment: maps a path to the contents of the directory at
that path, `none` when no directory exists there. -/
def Fs : Type := String → Option (List String)

/-- Pointwise update of a directory tree. -/
def fsSet (fs : Fs) (p : String) (v : Option (List String)) : Fs :=
  fun q => if q = p then v else fs q

/-- Where the copy-and-delete fallback of `safe_rename_directory` can raise
inside its `try` block: nowhere, while removing an existing destination, or
during the copy. -/
inductive FallbackEvent where
  | ok
  | rmtreeDstRaises
  | copyRaises
  deriving DecidableEq

/-- Embeds `safe_rename_directory` (run_dart_sequence.py, lines 306-328).
`renameOk` is whether the direct `os.rename` succeeds (it fails in particular
when a nonempty directory already exists at `dst`); on failure the fallback
removes any existing destination, copies the source over it, and best-effort
removes the source (`rmtreeOldOk`; that failure is caught and the call still
returns True).  `fb` locates an exception inside the fallback's `try`, which
is caught and turned into a False return. -/
def safe_rename_directory (renameOk : Bool) (fb : FallbackEvent)
    (rmtreeOldOk : Bool) (src dst : String) (fs : Fs) : Fs × Bool :=
  if renameOk then
    (fsSet (fsSet fs dst (fs src)) src none, true)
  else
    match fb with
    | FallbackEvent.rmtreeDstRaises => (fs, false)
    | FallbackEvent.copyRaises =>
      ((if (fs dst).isSome then fsSet fs dst none else fs), false)
    | FallbackEvent.ok =>
      let fs1 := if (fs dst).isSome then fsSet fs dst none else fs
      let fs2 := fsSet fs1 dst (fs1 src)
      let fs3 := if rmtreeOldOk then fsSet fs2 src none else fs2
      (fs3, true)

/-- Embeds the per-folder relocation step of `rename_sequence_folders`
(run_dart_sequence.py, lines 455-467), once the destination name has been
computed: when a directory already exists at the destination it is removed
with `shutil.rmtree` first (`rmtreeDstOk` tells whether that removal
succeeds; a failure logs a warning and skips this folder), and then
`safe_rename_directory` runs.  Returns the updated tree and whether the
folder was relocated. -/
def relocate_folder (rmtreeDstOk renameOk : Bool) (fb : FallbackEvent)
    (rmtreeOldOk : Bool) (src dst : String) (fs : Fs) : Fs × Bool :=
  if (fs dst).isSome && !rmtreeDstOk then (fs, false)
  else
    let fs0 := if (fs dst).isSome then fsSet fs dst none else fs
    safe_rename_directory renameOk fb rmtreeOldOk src dst fs0

/-- Qualifying-line count in the words of claim C1 (spec wording, kept for
comparison with `count_trees_in_position_file`): a line qualifies exactly when
its first whitespace-delimited token is the literal string "0" and it has at
least 7 whitespace-separated fields. -/
def claim_qualifying_count (lines : List (List String)) : Nat :=
  (lines.filter (fun line =>
    line.head? == some ("0") && decide (7 ≤ line.length))).length

/-- A line whose first token is the literal "0" passes the Python
`startswith("0")` test. -/
theorem startsWithZeroChar_of_head (line : List String)
    (h : line.head? = some ("0")) : startsWithZeroChar line = true := by
  cases line with
  | nil => simp at h
  | cons t rest =>
    simp only [List.head?_cons, Option.some.injEq] at h
    subst h
    simp only [startsWithZeroChar]
    decide

/-- C3: the LambertianMulti index offset is a pure, deterministic function of
the multi-soil flag and the discovered valid-soil count: it equals that count
when multi-soil mode is enabled and the count is positive, and 0 in every
other case — in particular it is 0 whenever multi-soil mode is disabled,
whatever `get_available_soils` would have found on disk. -/
theorem offset_policy (multiSol : Bool) (soils : Option (List String)) :
    compute_offset multiSol soils =
      if multiSol = true ∧ 0 < (soils.getD []).length
      then (soils.getD []).length else 0 := by
  cases multiSol with
  | false => simp [compute_offset]
  | true =>
    cases soils with
    | none => simp [compute_offset]
    | some l =>
      by_cases hl : 0 < l.length
      · simp [compute_offset, hl]
      · simp [compute_offset, hl]

/-- C1 counterexample: a position file holding one full record line and one
additional short line that also starts with "0".  The entity count used for
descriptor generation is 2, while the number of qualifying lines in the
claim's sense is 1, so the two disagree. -/
theorem entity_count_counterexample :
    count_trees_in_position_file
        [["0", "1", "2", "3", "4", "5", "6"], ["0", "1"]] = 2 ∧
      claim_qualifying_count
        [["0", "1", "2", "3", "4", "5", "6"], ["0", "1"]] = 1 := by
  constructor
  · decide
  · decide

/-- C1 (amended): the entity count is the number of lines whose stripped text
starts with the digit zero, with no condition on the field count; the
claim's qualifying-line count never exceeds it, and the two agree exactly on
files where every zero-starting line also has first token "0" and at least 7
fields. -/
theorem entity_count_amended (lines : List (List String)) :
    claim_qualifying_count lines ≤ count_trees_in_position_file lines ∧
      ((∀ line ∈ lines, startsWithZeroChar line = true →
          line.head? = some ("0") ∧ 7 ≤ line.length) →
        count_trees_in_position_file lines = claim_qualifying_count lines) := by
  have himp : ∀ line : List String,
      (line.head? == some ("0") && decide (7 ≤ line.length)) = true →
      startsWithZeroChar line = true := by
    intro line h
    rw [Bool.and_eq_true, beq_iff_eq] at h
    exact startsWithZeroChar_of_head line h.1
  constructor
  · unfold claim_qualifying_count count_trees_in_position_file
    rw [← List.countP_eq_length_filter, ← List.countP_eq_length_filter]
    exact List.countP_mono_left (fun x _ hx => himp x hx)
  · intro hall
    unfold claim_qualifying_count count_trees_in_position_file
    congr 1
    apply List.filter_congr
    intro x hx
    by_cases hp : startsWithZeroChar x = true
    · rcases hall x hx hp with ⟨h1, h2⟩
      have hq : (x.head? == some ("0") && decide (7 ≤ x.length)) = true := by
        rw [Bool.and_eq_true, beq_iff_eq]
        exact ⟨h1, by simpa using h2⟩
      rw [hp, hq]
    · have hp' : startsWithZeroChar x = false := by simpa using hp
      have hq' : (x.head? == some ("0") && decide (7 ≤ x.length)) = false := by
        by_contra hc
        exact hp (himp x (by simpa using hc))
      rw [hp', hq']

/-- C1 witness: on a file whose only zero-starting line is a full record, the
amended theorem applies and the two counts agree. -/
theorem entity_count_amended_witness :
    claim_qualifying_count [["0", "1", "2", "3", "4", "5", "6"], ["1", "2"]] ≤
        count_trees_in_position_file
          [["0", "1", "2", "3", "4", "5", "6"], ["1", "2"]] ∧
      count_trees_in_position_file
          [["0", "1", "2", "3", "4", "5", "6"], ["1", "2"]] =
        claim_qualifying_count [["0", "1", "2", "3", "4", "5", "6"], ["1", "2"]] :=
  ⟨(entity_count_amended _).1, (entity_count_amended _).2 (by decide)⟩

/-- C2 counterexample: a non-empty variant list whose single variant raises an
uncaught exception during processing.  The loop has no try/finally, so the
exception propagates and `restore_original_maket_xml` never runs: the restore
count is 0, not 1. -/
theorem restore_skipped_counterexample :
    (run_for_all_soils_multi [SoilOutcome.raises]).restoreCalls = 0 ∧
      [SoilOutcome.raises] ≠ [] := by
  constructor
  · rfl
  · simp

/-- On a variant list where no iteration raises, the loop completes and
returns the records and the final flag. -/
theorem soil_loop_no_raises (outcomes : List SoilOutcome)
    (h : SoilOutcome.raises ∉ outcomes) (acc : Bool) :
    soil_loop acc outcomes =
      some (outcomes.map (fun o => o == SoilOutcome.success),
        acc && outcomes.all (fun o => o == SoilOutcome.success)) := by
  induction outcomes generalizing acc with
  | nil => simp [soil_loop]
  | cons o rest ih =>
    have ho : o ≠ SoilOutcome.raises := fun he => h (he ▸ List.mem_cons_self o rest)
    have hrest : SoilOutcome.raises ∉ rest := fun hm => h (List.mem_cons_of_mem o hm)
    cases o with
    | raises => exact absurd rfl ho
    | success =>
      simp only [soil_loop, ih hrest acc, Option.map_some', List.map_cons,
        List.all_cons, beq_self_eq_true, Bool.true_and]
    | updateFail =>
      simp only [soil_loop, ih hrest false, Option.map_some', List.map_cons,
        List.all_cons]
      simp
    | simFail =>
      simp only [soil_loop, ih hrest false, Option.map_some', List.map_cons,
        List.all_cons]
      simp
    | seqFail =>
      simp only [soil_loop, ih hrest false, Option.map_some', List.map_cons,
        List.all_cons]
      simp

/-- C2 (amended): whenever no uncaught exception escapes a variant iteration
— the success path and every partial per-variant-failure path — the restore
of the original maket.xml runs exactly once, at the very end; when an
exception does escape, the function exits without restoring. -/
theorem restore_runs_once (outcomes : List SoilOutcome)
    (h : SoilOutcome.raises ∉ outcomes) :
    (run_for_all_soils_multi outcomes).restoreCalls = 1 ∧
      (run_for_all_soils_multi outcomes).sweepRan = true := by
  unfold run_for_all_soils_multi
  rw [soil_loop_no_raises outcomes h true]
  exact ⟨rfl, rfl⟩

/-- C2 witness: on a list with one successful and one failed variant, the
restore runs exactly once. -/
theorem restore_runs_once_witness :
    (run_for_all_soils_multi [SoilOutcome.success, SoilOutcome.seqFail]).restoreCalls = 1 ∧
      (run_for_all_soils_multi [SoilOutcome.success, SoilOutcome.seqFail]).sweepRan = true :=
  restore_runs_once [SoilOutcome.success, SoilOutcome.seqFail] (by decide)

/-- The per-variant step mapping never produces the exception outcome. -/
theorem variant_outcome_ne_raises (u : Bool) (s q : Nat) :
    variant_outcome u s q ≠ SoilOutcome.raises := by
  unfold variant_outcome
  split
  · simp
  · split
    · simp
    · split <;> simp

/-- A variant step succeeds exactly when the maket update worked and both run
codes are zero. -/
theorem variant_outcome_success_iff (u : Bool) (s q : Nat) :
    variant_outcome u s q = SoilOutcome.success ↔ u = true ∧ s = 0 ∧ q = 0 := by
  unfold variant_outcome
  cases u with
  | false => simp
  | true =>
    simp only [Bool.not_true, Bool.false_eq_true, if_false]
    by_cases hs : s = 0
    · by_cases hq : q = 0
      · simp [hs, hq]
      · simp [hs, hq]
    · simp [hs]

/-- C6: over any sequence of per-variant step results (maket update outcome,
single-run code, fate of the sequence-run child), the orchestrator restores
the original configuration exactly once, runs the final relocation sweep,
keeps one success record per variant, records a variant whose sequence run
timed out as failed while still processing all variants, and reports overall
success exactly when every variant's update worked and both run codes were
zero. -/
theorem seq_failure_semantics (events : List (Bool × Nat × SeqEvent)) :
    (orchestrate_events events).restoreCalls = 1 ∧
      (orchestrate_events events).sweepRan = true ∧
      (orchestrate_events events).records.length = events.length ∧
      (∀ i, i < events.length →
        (events.getD i (true, 0, SeqEvent.completed 0)).2.2 = SeqEvent.timeout →
        (orchestrate_events events).records.getD i true = false) ∧
      ((orchestrate_events events).result = some true ↔
        ∀ e ∈ events, e.1 = true ∧ e.2.1 = 0 ∧ run_sequence_code e.2.2 = 0) := by
  have hnr : SoilOutcome.raises ∉ events.map (fun e =>
      variant_outcome e.1 e.2.1 (run_sequence_code e.2.2)) := by
    intro hm
    rcases List.mem_map.mp hm with ⟨e, _, he⟩
    exact variant_outcome_ne_raises _ _ _ he
  have hor : orchestrate_events events = OrchResult.mk 1 true
      ((events.map (fun e => variant_outcome e.1 e.2.1 (run_sequence_code e.2.2))).map
        (fun o => o == SoilOutcome.success))
      (some (true && (events.map (fun e =>
        variant_outcome e.1 e.2.1 (run_sequence_code e.2.2))).all
          (fun o => o == SoilOutcome.success))) := by
    unfold orchestrate_events run_for_all_soils_multi
    rw [soil_loop_no_raises _ hnr true]
  refine ⟨by rw [hor], by rw [hor], by rw [hor]; simp, ?_, ?_⟩
  · intro i hi htime
    rw [hor]
    have hlen : i < (((events.map (fun e =>
        variant_outcome e.1 e.2.1 (run_sequence_code e.2.2))).map
          (fun o => o == SoilOutcome.success)).length) := by simpa using hi
    rw [List.getD_eq_getElem?_getD, List.getElem?_eq_getElem hlen]
    have hev : events.getD i (true, 0, SeqEvent.completed 0) = events[i] := by
      rw [List.getD_eq_getElem?_getD, List.getElem?_eq_getElem hi]
      rfl
    rw [hev] at htime
    simp only [List.getElem_map, Option.getD_some]
    rw [beq_eq_false_iff_ne]
    intro hsucc
    have hz := ((variant_outcome_success_iff _ _ _).mp hsucc).2.2
    rw [htime] at hz
    simp [run_sequence_code] at hz
  · rw [hor]
    simp only [Bool.true_and, Option.some.injEq, List.all_eq_true, List.mem_map,
      beq_iff_eq]
    constructor
    · intro hall e he
      exact (variant_outcome_success_iff _ _ _).mp
        (hall _ ⟨e, he, rfl⟩)
    · intro hall o ho
      rcases ho with ⟨e, he, rfl⟩
      exact (variant_outcome_success_iff _ _ _).mpr (hall e he)

/-- C6 witness: one variant whose sequence run timed out, followed by one
fully successful variant. -/
theorem seq_failure_semantics_witness :
    (orchestrate_events [(true, 0, SeqEvent.timeout), (true, 0, SeqEvent.completed 0)]).restoreCalls = 1 ∧
      (orchestrate_events [(true, 0, SeqEvent.timeout), (true, 0, SeqEvent.completed 0)]).sweepRan = true ∧
      (orchestrate_events [(true, 0, SeqEvent.timeout), (true, 0, SeqEvent.completed 0)]).records.length = 2 ∧
      (∀ i, i < 2 →
        ([(true, 0, SeqEvent.timeout), (true, 0, SeqEvent.completed 0)].getD i
          (true, 0, SeqEvent.completed 0)).2.2 = SeqEvent.timeout →
        (orchestrate_events [(true, 0, SeqEvent.timeout), (true, 0, SeqEvent.completed 0)]).records.getD i true = false) ∧
      ((orchestrate_events [(true, 0, SeqEvent.timeout), (true, 0, SeqEvent.completed 0)]).result = some true ↔
        ∀ e ∈ [((true : Bool), (0 : Nat), SeqEvent.timeout), (true, 0, SeqEvent.completed 0)],
          e.1 = true ∧ e.2.1 = 0 ∧ run_sequence_code e.2.2 = 0) :=
  seq_failure_semantics [(true, 0, SeqEvent.timeout), (true, 0, SeqEvent.completed 0)]

/-- C8: given a non-empty spectral manifest (as `get_spectral_intervals`
always produces — it returns `none` rather than an empty dictionary), a
subdirectory name is in the discovery result iff the subdirectory's count of
files named ending in ".txt" exactly equals the declared band count; a
mismatching subdirectory is merely excluded, discovery continues. -/
theorem soil_discovery_membership (folders : List (String × List String))
    (spectral : List (Nat × Nat)) (hs : spectral ≠ []) (name : String) :
    name ∈ check_soil_band_files folders spectral ↔
      ∃ files, (name, files) ∈ folders ∧
        (files.filter (fun n => endsWithTxt n)).length = spectral.length := by
  have hne : ¬ spectral.isEmpty = true := by
    cases spectral with
    | nil => exact absurd rfl hs
    | cons a t => simp
  simp only [check_soil_band_files]
  rw [if_neg hne]
  constructor
  · intro hm
    rcases List.mem_map.mp hm with ⟨f, hf, rfl⟩
    rcases List.mem_filter.mp hf with ⟨hmem, hcond⟩
    exact ⟨f.2, hmem, by simpa using hcond⟩
  · rintro ⟨files, hmem, hlen⟩
    exact List.mem_map.mpr ⟨(name, files),
      List.mem_filter.mpr ⟨hmem, by simpa using hlen⟩, rfl⟩

/-- C8 witness: with a two-band manifest, a folder holding two ".txt" files is
discovered while the folder holding one is not among the qualifying file
sets. -/
theorem soil_discovery_membership_witness :
    ("good" ∈ check_soil_band_files
        [("good", ["a.txt", "b.txt"]), ("bad", ["a.txt"])]
        [(0, 0), (1, 0)]) ↔
      ∃ files, (("good", files) ∈
          [("good", ["a.txt", "b.txt"]), ("bad", ["a.txt"])]) ∧
        (files.filter (fun n => endsWithTxt n)).length =
          ([((0 : Nat), (0 : Nat)), (1, 0)]).length :=
  soil_discovery_membership
    [("good", ["a.txt", "b.txt"]), ("bad", ["a.txt"])]
    [(0, 0), (1, 0)] (by decide) ("good")

/-- C10: when a directory already exists at the relocation destination it is
recursively deleted and the move proceeds, replacing the destination with the
source's contents instead of refusing: on the direct-rename path (where
`rename_sequence_folders` removes the existing target before calling the
rename), on the copy-and-delete fallback reached through the same pre-removal,
and inside `safe_rename_directory`'s own fallback when it meets an existing
destination. -/
theorem relocation_overwrites (fs : Fs) (src dst : String) (d0 : List String)
    (hne : src ≠ dst) (hdst : fs dst = some d0) (fb : FallbackEvent)
    (rOld : Bool) :
    ((relocate_folder true true fb rOld src dst fs).1 dst = fs src ∧
      (relocate_folder true true fb rOld src dst fs).2 = true) ∧
    ((relocate_folder true false FallbackEvent.ok rOld src dst fs).1 dst = fs src ∧
      (relocate_folder true false FallbackEvent.ok rOld src dst fs).2 = true) ∧
    ((safe_rename_directory false FallbackEvent.ok rOld src dst fs).1 dst = fs src ∧
      (safe_rename_directory false FallbackEvent.ok rOld src dst fs).2 = true) := by
  have hne' : dst ≠ src := Ne.symm hne
  cases rOld with
  | true =>
    refine ⟨⟨?_, ?_⟩, ⟨?_, ?_⟩, ⟨?_, ?_⟩⟩ <;>
      simp [relocate_folder, safe_rename_directory, fsSet, hdst, hne, hne']
  | false =>
    refine ⟨⟨?_, ?_⟩, ⟨?_, ?_⟩, ⟨?_, ?_⟩⟩ <;>
      simp [relocate_folder, safe_rename_directory, fsSet, hdst, hne, hne']

/-- Concrete directory tree for the C10 witness: an unqualified sequence
folder and a leftover folder already at the qualified destination name. -/
def sampleTree : Fs := fun p =>
  if p = "sequence_1" then some ["f1"]
  else if p = "sequence_alpha_1" then some ["g1"] else none

/-- C10 witness: relocating `sequence_1` onto the occupied name
`sequence_alpha_1` replaces the old destination contents with the source's on
all three paths. -/
theorem relocation_overwrites_witness :
    ((relocate_folder true true FallbackEvent.ok true
        ("sequence_1") ("sequence_alpha_1") sampleTree).1 ("sequence_alpha_1") =
          sampleTree ("sequence_1") ∧
      (relocate_folder true true FallbackEvent.ok true
        ("sequence_1") ("sequence_alpha_1") sampleTree).2 = true) ∧
    ((relocate_folder true false FallbackEvent.ok true
        ("sequence_1") ("sequence_alpha_1") sampleTree).1 ("sequence_alpha_1") =
          sampleTree ("sequence_1") ∧
      (relocate_folder true false FallbackEvent.ok true
        ("sequence_1") ("sequence_alpha_1") sampleTree).2 = true) ∧
    ((safe_rename_directory false FallbackEvent.ok true
        ("sequence_1") ("sequence_alpha_1") sampleTree).1 ("sequence_alpha_1") =
          sampleTree ("sequence_1") ∧
      (safe_rename_directory false FallbackEvent.ok true
        ("sequence_1") ("sequence_alpha_1") sampleTree).2 = true) :=
  relocation_overwrites sampleTree ("sequence_1") ("sequence_alpha_1") ["g1"]
    (by decide) (by decide) FallbackEvent.ok true

/-- C7: in every trial row produced by `generate_random_values`, every leaf
and trunk temperature (all positions after index 0) is strictly below that
trial's soil temperature (index 0), because leaf draws lie in [1, 10] and
trunk draws in [1/2, 5] and both are subtracted from the soil draw. -/
theorem temps_below_soil (nbr_simulation num_trees : Nat)
    (cabDraw cwDraw : Nat → Nat → ℚ) (soilDraw : Nat → ℚ)
    (leafDraw trunkDraw : Nat → Nat → ℚ)
    (hleaf : ∀ t i, 1 ≤ leafDraw t i ∧ leafDraw t i ≤ 10)
    (htrunk : ∀ t i, 1 / 2 ≤ trunkDraw t i ∧ trunkDraw t i ≤ 5) :
    ∀ tl ∈ (generate_random_values nbr_simulation num_trees cabDraw cwDraw
        soilDraw leafDraw trunkDraw).2.2,
      ∀ j, 1 ≤ j → j < tl.length → tl.getD j 0 < tl.getD 0 0 := by
  intro tl htl j hj hjlen
  simp only [generate_random_values, List.mem_map, List.mem_range] at htl
  rcases htl with ⟨t, ht, rfl⟩
  obtain ⟨k, rfl⟩ : ∃ k, j = k + 1 :=
    ⟨j - 1, (Nat.succ_pred_eq_of_pos hj).symm⟩
  rw [List.singleton_append, List.cons_append] at hjlen ⊢
  rw [List.getD_cons_succ, List.getD_cons_zero]
  rw [List.length_cons] at hjlen
  have hk : k < ((List.range num_trees).map
      (fun i => soilDraw t - leafDraw t i) ++
        (List.range num_trees).map
          (fun i => soilDraw t - trunkDraw t i)).length :=
    Nat.lt_of_succ_lt_succ hjlen
  have hmem : ((List.range num_trees).map
      (fun i => soilDraw t - leafDraw t i) ++
        (List.range num_trees).map
          (fun i => soilDraw t - trunkDraw t i)).getD k 0 ∈
      (List.range num_trees).map (fun i => soilDraw t - leafDraw t i) ++
        (List.range num_trees).map (fun i => soilDraw t - trunkDraw t i) := by
    rw [List.getD_eq_getElem?_getD, List.getElem?_eq_getElem hk]
    exact List.getElem_mem hk
  rcases List.mem_append.mp hmem with hA | hB
  · rcases List.mem_map.mp hA with ⟨i, _, heq⟩
    rw [← heq]
    have h1 := (hleaf t i).1
    linarith
  · rcases List.mem_map.mp hB with ⟨i, _, heq⟩
    rw [← heq]
    have h1 := (htrunk t i).1
    linarith

/-- C7 witness: one trial, one tree, soil draw 300, leaf draw 2 and trunk
draw 1 satisfy the distribution bounds, and in the generated row the leaf
temperature at index 1 is below the soil temperature at index 0. -/
theorem temps_below_soil_witness :
    ([(300 : ℚ)] ++ [300 - 2] ++ [300 - 1]).getD 1 0 <
      ([(300 : ℚ)] ++ [300 - 2] ++ [300 - 1]).getD 0 0 := by
  have hm : ([(300 : ℚ)] ++ [300 - 2] ++ [300 - 1]) ∈
      (generate_random_values 1 1 (fun _ _ => 0) (fun _ _ => 0) (fun _ => 300)
        (fun _ _ => 2) (fun _ _ => 1)).2.2 := by
    simp [generate_random_values]
  exact temps_below_soil 1 1 (fun _ _ => 0) (fun _ _ => 0) (fun _ => 300)
    (fun _ _ => 2) (fun _ _ => 1) (fun _ _ => by norm_num)
    (fun _ _ => by norm_num) _ hm 1 (by norm_num) (by simp)

/-- C4: with multi-soil enabled, three valid variants discovered and a
position file counting two entities, the generated document (for any float
formatting and any draws) has two groups; the primary group's chlorophyll
entries carry LambertianMulti indices 3 and 4 in their property paths; and
the secondary soil group holds exactly the soil-identity series with its 3
values and the phase-index series with values 0, 1, 2. -/
theorem scenario_multisoil_offset (fmt : ℚ → String) :
    ∃ doc, create_sequence_xml (Config.mk 1 false false false true false true)
        [["0"], ["0"]] (fun _ => none) fmt (some ["a", "b", "c"])
        (fun _ _ => 0) (fun _ _ => 0) (fun _ => 0) (fun _ _ => 0)
        (fun _ _ => 0) (fun _ _ => 0) = Except.ok doc ∧
      doc.groups.map SeqGroup.groupName = ["group1", "group_soil"] ∧
      (doc.groups.getD 0 (SeqGroup.mk ("") [])).entries.map Entry.propertyName =
        ["Coeff_diff.Surfaces.LambertianMultiFunctions.LambertianMulti[3].Lambertian.ProspectExternalModule.ProspectExternParameters.Cab",
         "Coeff_diff.Surfaces.LambertianMultiFunctions.LambertianMulti[4].Lambertian.ProspectExternalModule.ProspectExternParameters.Cab"] ∧
      (doc.groups.getD 1 (SeqGroup.mk ("") [])).entries =
        [Entry.mk ["soil_a", "soil_b", "soil_c"]
          ("Maket.Soil.OpticalPropertyLink.ident") ("enumerate"),
         Entry.mk ["0", "1", "2"]
          ("Maket.Soil.OpticalPropertyLink.indexFctPhase") ("enumerate")] := by
  refine ⟨_, rfl, ?_, ?_, ?_⟩ <;> rfl

/-- Counting helper: if every `q`-line is a `p`-line and some `p`-line is not
a `q`-line, the `q` count is strictly below the `p` count. -/
theorem countP_lt_of_witness {α : Type} (p q : α → Bool) (l : List α)
    (himp : ∀ a ∈ l, q a = true → p a = true)
    (x : α) (hx : x ∈ l) (hpx : p x = true) (hqx : q x = false) :
    l.countP q < l.countP p := by
  induction l with
  | nil => simp at hx
  | cons a t ih =>
    rw [List.countP_cons, List.countP_cons]
    rcases List.mem_cons.mp hx with rfl | hxt
    · have hle : t.countP q ≤ t.countP p :=
        List.countP_mono_left (fun y hy hqy => himp y (List.mem_cons_of_mem _ hy) hqy)
      rw [hpx, hqx]
      simp only [if_true, Bool.false_eq_true, if_false]
      omega
    · have hcnt := ih (fun y hy => himp y (List.mem_cons_of_mem _ hy)) hxt
      have hhead : (if q a = true then 1 else 0) ≤ (if p a = true then 1 else 0) := by
        by_cases hqa : q a = true
        · rw [if_pos hqa, if_pos (himp a (List.mem_cons_self a t) hqa)]
        · rw [if_neg hqa]
          exact Nat.zero_le _
      exact Nat.add_lt_add_of_lt_of_le hcnt hhead

/-- When `float` parsing succeeds on every qualifying line, the scale list has
exactly one element per qualifying line. -/
theorem read_scale_length (pf : String → Option ℚ) (lines : List (List String))
    (hparse : ∀ line ∈ lines,
      (startsWithZeroChar line && decide (7 ≤ line.length)) = true →
      (pf (line.getD 4 (""))).isSome = true) :
    (read_scale_from_positions pf lines).length =
      (lines.filter (fun l =>
        startsWithZeroChar l && decide (7 ≤ l.length))).length := by
  induction lines with
  | nil => rfl
  | cons l ls ih =>
    have hls := fun x hx => hparse x (List.mem_cons_of_mem l hx)
    rw [← List.countP_eq_length_filter, List.countP_cons]
    by_cases hc : (startsWithZeroChar l && decide (7 ≤ l.length)) = true
    · obtain ⟨v, hv⟩ := Option.isSome_iff_exists.mp
        (hparse l (List.mem_cons_self l ls) hc)
      simp only [read_scale_from_positions]
      rw [if_pos hc, hv, if_pos hc]
      show (v :: read_scale_from_positions pf ls).length =
        List.countP (fun l => startsWithZeroChar l && decide (7 ≤ l.length)) ls + 1
      rw [List.length_cons, ih hls, List.countP_eq_length_filter]
    · simp only [read_scale_from_positions]
      rw [if_neg hc, if_neg hc, Nat.add_zero, ih hls,
        List.countP_eq_length_filter]

/-- The scale-entry loop raises `IndexError` as soon as its index list holds
an index past the end of the scale list. -/
theorem scale_entries_index_error (fmt : ℚ → String) (scales : List ℚ)
    (nbr : Nat) (draw : Nat → Nat → ℚ) (ixs : List Nat)
    (h : ∃ i ∈ ixs, scales.length ≤ i) :
    scale_entries fmt scales nbr draw ixs = Except.error ("IndexError") := by
  induction ixs with
  | nil =>
    rcases h with ⟨i, hi, _⟩
    simp at hi
  | cons i rest ih =>
    cases hg : scales[i]? with
    | none => simp [scale_entries, hg]
    | some s =>
      have hlt : i < scales.length := by
        by_contra hge
        rw [List.getElem?_eq_none (Nat.le_of_not_lt hge)] at hg
        cases hg
      rcases h with ⟨i2, hi2, hle⟩
      have hrest : i2 ∈ rest := by
        rcases List.mem_cons.mp hi2 with rfl | hr
        · exact absurd hle (Nat.not_le.mpr hlt)
        · exact hr
      simp only [scale_entries, hg]
      rw [ih ⟨i2, hrest, hle⟩]

/-- C9: if the scale flag is enabled and the position file holds at least one
zero-starting line with at least 7 fields (whose fifth field parses as a
float, as a scale value must) plus at least one zero-starting line with fewer
than 7 fields, the generation aborts with an uncaught `IndexError` while
emitting scale entries: the scale list is shorter than the counted tree
total, instead of the short line being dropped consistently. -/
theorem scale_index_error (cfg : Config) (lines : List (List String))
    (pf : String → Option ℚ) (fmt : ℚ → String) (soils : Option (List String))
    (cabDraw cwDraw : Nat → Nat → ℚ) (soilDraw : Nat → ℚ)
    (leafDraw trunkDraw scaleDraw : Nat → Nat → ℚ)
    (hscale : cfg.scale = true)
    (hfull : ∃ line ∈ lines, startsWithZeroChar line = true ∧ 7 ≤ line.length)
    (hshort : ∃ line ∈ lines, startsWithZeroChar line = true ∧ line.length < 7)
    (hparse : ∀ line ∈ lines,
      (startsWithZeroChar line && decide (7 ≤ line.length)) = true →
      (pf (line.getD 4 (""))).isSome = true) :
    create_sequence_xml cfg lines pf fmt soils cabDraw cwDraw soilDraw
      leafDraw trunkDraw scaleDraw = Except.error ("IndexError") := by
  have hql : (read_scale_from_positions pf lines).length =
      (lines.filter (fun l =>
        startsWithZeroChar l && decide (7 ≤ l.length))).length :=
    read_scale_length pf lines hparse
  rcases hshort with ⟨ls0, hls0, hp0, hlen0⟩
  have hq0 : (startsWithZeroChar ls0 && decide (7 ≤ ls0.length)) = false := by
    have : ¬ (7 ≤ ls0.length) := Nat.not_le.mpr hlen0
    simp [this]
  have hlt : (lines.filter (fun l =>
      startsWithZeroChar l && decide (7 ≤ l.length))).length <
      count_trees_in_position_file lines := by
    unfold count_trees_in_position_file
    rw [← List.countP_eq_length_filter, ← List.countP_eq_length_filter]
    exact countP_lt_of_witness _ _ lines
      (fun a _ hq => ((Bool.and_eq_true _ _).mp hq).1) ls0 hls0 hp0 hq0
  have hpos : 0 < (lines.filter (fun l =>
      startsWithZeroChar l && decide (7 ≤ l.length))).length := by
    rcases hfull with ⟨lf, hlf, hpf, hlenf⟩
    have : lf ∈ lines.filter (fun l =>
        startsWithZeroChar l && decide (7 ≤ l.length)) :=
      List.mem_filter.mpr ⟨hlf, by simp [hpf, hlenf]⟩
    exact List.length_pos.mpr (List.ne_nil_of_mem this)
  have hnum : ¬ (count_trees_in_position_file lines = 0) := by omega
  have hempty : (read_scale_from_positions pf lines).isEmpty = false := by
    have hne : read_scale_from_positions pf lines ≠ [] := by
      intro h0
      rw [h0] at hql
      simp at hql
      omega
    simpa [List.isEmpty_iff] using hne
  have herr : scale_entries fmt (read_scale_from_positions pf lines)
      cfg.nbr_of_sequence scaleDraw
      (List.range (count_trees_in_position_file lines)) =
      Except.error ("IndexError") := by
    apply scale_entries_index_error
    refine ⟨(read_scale_from_positions pf lines).length, ?_, Nat.le_refl _⟩
    rw [List.mem_range, hql]
    exact hlt
  simp only [create_sequence_xml]
  rw [if_neg hnum]
  rw [hscale]
  simp only [eq_self_iff_true, if_true, Bool.true_and, hempty, Bool.not_false,
    ite_true]
  rw [herr]

/-- C9 witness: a position file with one full record line and one short
zero-starting line makes generation abort with `IndexError` when the scale
flag is on. -/
theorem scale_index_error_witness :
    create_sequence_xml (Config.mk 1 true false false false false false)
        [["0", "1", "2", "3", "4", "5", "6"], ["0"]] (fun _ => some 1)
        (fun _ => "") none
        (fun _ _ => 0) (fun _ _ => 0) (fun _ => 0) (fun _ _ => 0)
        (fun _ _ => 0) (fun _ _ => 0) = Except.error ("IndexError") :=
  scale_index_error (Config.mk 1 true false false false false false)
    [["0", "1", "2", "3", "4", "5", "6"], ["0"]] (fun _ => some 1)
    (fun _ => "") none
    (fun _ _ => 0) (fun _ _ => 0) (fun _ => 0) (fun _ _ => 0)
    (fun _ _ => 0) (fun _ _ => 0) rfl (by decide) (by decide) (by decide)

/-- Indexing a mapped range with a default: in-bounds access yields the
function value. -/
theorem getD_range_map {β : Type} (f : Nat → β) (n i : Nat) (d : β)
    (h : i < n) : ((List.range n).map f).getD i d = f i := by
  have hl : i < ((List.range n).map f).length := by simpa using h
  rw [List.getD_eq_getElem?_getD, List.getElem?_eq_getElem hl]
  simp

/-- Every chlorophyll row handed to the entry builders holds one draw per
trial. -/
theorem cab_row_length (nbr n : Nat) (c w : Nat → Nat → ℚ) (sd : Nat → ℚ)
    (ld td : Nat → Nat → ℚ) (i : Nat) (h : i < n) :
    (((generate_random_values nbr n c w sd ld td).1).getD i []).length = nbr := by
  simp only [generate_random_values]
  rw [getD_range_map _ _ _ _ h]
  simp

/-- Every water-thickness row holds one draw per trial. -/
theorem cw_row_length (nbr n : Nat) (c w : Nat → Nat → ℚ) (sd : Nat → ℚ)
    (ld td : Nat → Nat → ℚ) (i : Nat) (h : i < n) :
    (((generate_random_values nbr n c w sd ld td).2.1).getD i []).length = nbr := by
  simp only [generate_random_values]
  rw [getD_range_map _ _ _ _ h]
  simp

/-- Every entry produced by a successful scale-entry loop has one deviation
value per trial. -/
theorem scale_entries_args (fmt : ℚ → String) (scales : List ℚ) (nbr : Nat)
    (draw : Nat → Nat → ℚ) (ixs : List Nat) (es : List Entry)
    (h : scale_entries fmt scales nbr draw ixs = Except.ok es) :
    ∀ e ∈ es, e.args.length = nbr := by
  induction ixs generalizing es with
  | nil =>
    simp only [scale_entries] at h
    injection h with h2
    subst h2
    simp
  | cons i rest ih =>
    cases hg : scales[i]? with
    | none =>
      simp only [scale_entries, hg] at h
      cases h
    | some s =>
      simp only [scale_entries, hg] at h
      cases hr : scale_entries fmt scales nbr draw rest with
      | error e2 =>
        rw [hr] at h
        cases h
      | ok tail =>
        rw [hr] at h
        injection h with h2
        subst h2
        intro e he
        rcases List.mem_append.mp he with h3 | ht
        · simp only [List.mem_cons, List.not_mem_nil, or_false] at h3
          rcases h3 with rfl | rfl | rfl <;> simp
        · exact ih tail hr e ht

/-- Any member of the optional soil group comes from a nonempty discovered
variant list and is exactly the two-series soil group. -/
theorem soil_groups_mem (multiSol : Bool) (soils : Option (List String))
    (g : SeqGroup) (hg : g ∈ soil_groups multiSol soils) :
    ∃ l, soils = some l ∧ l.isEmpty = false ∧
      g = SeqGroup.mk ("group_soil")
        [Entry.mk (l.map (fun s => "soil_" ++ s))
          ("Maket.Soil.OpticalPropertyLink.ident") ("enumerate"),
         Entry.mk ((List.range l.length).map (fun i => toString i))
          ("Maket.Soil.OpticalPropertyLink.indexFctPhase") ("enumerate")] := by
  cases multiSol with
  | false => simp [soil_groups] at hg
  | true =>
    cases soils with
    | none => simp [soil_groups] at hg
    | some l =>
      by_cases hle : l.isEmpty = true
      · simp [soil_groups, hle] at hg
      · refine ⟨l, rfl, by simpa using hle, ?_⟩
        simp [soil_groups, hle] at hg
        exact hg

/-- C5: in every successfully generated document, every series of the primary
group (scale deviations, soil temperature, leaf and trunk temperatures,
chlorophyll, water thickness) carries exactly one value per trial, while the
soil group consists of exactly the two variant-indexed series (soil identity
and phase index), each carrying one value per discovered variant. -/
theorem series_lengths (cfg : Config) (lines : List (List String))
    (pf : String → Option ℚ) (fmt : ℚ → String) (soils : Option (List String))
    (cabDraw cwDraw : Nat → Nat → ℚ) (soilDraw : Nat → ℚ)
    (leafDraw trunkDraw scaleDraw : Nat → Nat → ℚ) (doc : SequenceDoc)
    (h : create_sequence_xml cfg lines pf fmt soils cabDraw cwDraw soilDraw
      leafDraw trunkDraw scaleDraw = Except.ok doc) :
    ∀ g ∈ doc.groups,
      (g.groupName = "group1" →
        ∀ e ∈ g.entries, e.args.length = cfg.nbr_of_sequence) ∧
      (g.groupName = "group_soil" → g.entries.length = 2 ∧
        ∀ e ∈ g.entries, e.args.length = (soils.getD []).length) := by
  by_cases hnum : count_trees_in_position_file lines = 0
  · simp only [create_sequence_xml] at h
    rw [if_pos hnum] at h
    cases h
  · simp only [create_sequence_xml] at h
    rw [if_neg hnum] at h
    split at h
    · cases h
    · rename_i sEntries heq
      injection h with h2
      subst h2
      intro g hg
      rcases List.mem_append.mp hg with h1 | hsoil
      · rw [List.mem_singleton] at h1
        subst h1
        constructor
        · intro _
          refine List.forall_mem_append.mpr ⟨List.forall_mem_append.mpr
            ⟨List.forall_mem_append.mpr
              ⟨?_, List.forall_mem_append.mpr ⟨?_, ?_⟩⟩, ?_⟩, ?_⟩
          · by_cases hc : (cfg.scale && !(if cfg.scale = true then
                read_scale_from_positions pf lines else []).isEmpty) = true
            · rw [if_pos hc] at heq
              exact scale_entries_args _ _ _ _ _ _ heq
            · rw [if_neg hc] at heq
              injection heq with h3
              subst h3
              intro e he
              cases he
          · by_cases hst : cfg.soil_temperature = true
            · rw [if_pos hst]
              intro e he
              rw [List.mem_singleton] at he
              subst he
              simp [soil_temp_entry, generate_random_values]
            · rw [if_neg hst]
              intro e he
              cases he
          · by_cases htt : cfg.tree_temperature = true
            · rw [if_pos htt]
              refine List.forall_mem_append.mpr ⟨?_, ?_⟩
              · intro e he
                rcases List.mem_map.mp he with ⟨i, _, rfl⟩
                simp [generate_random_values]
              · intro e he
                rcases List.mem_map.mp he with ⟨i, _, rfl⟩
                simp [generate_random_values]
            · rw [if_neg htt]
              intro e he
              cases he
          · by_cases hch : cfg.chlorophyl = true
            · rw [if_pos hch]
              intro e he
              rcases List.mem_map.mp he with ⟨i, hi, rfl⟩
              rw [List.mem_range] at hi
              simp only [List.length_map]
              exact cab_row_length _ _ _ _ _ _ _ i hi
            · rw [if_neg hch]
              intro e he
              cases he
          · by_cases hcw : cfg.water_thickness = true
            · rw [if_pos hcw]
              intro e he
              rcases List.mem_map.mp he with ⟨i, hi, rfl⟩
              rw [List.mem_range] at hi
              simp only [List.length_map]
              exact cw_row_length _ _ _ _ _ _ _ i hi
            · rw [if_neg hcw]
              intro e he
              cases he
        · intro hco
          simp at hco
      · rcases soil_groups_mem _ _ _ hsoil with ⟨l, rfl, hle, rfl⟩
        constructor
        · intro hco
          simp at hco
        · intro _
          refine ⟨rfl, ?_⟩
          intro e he
          simp only [List.mem_cons, List.not_mem_nil, or_false] at he
          rcases he with rfl | rfl
          · simp
          · simp

/-- C5 witness: a fully enabled configuration over a one-tree position file
with one discovered soil variant generates successfully, so the series-length
invariant applies to it. -/
theorem series_lengths_witness :
    ∃ doc, create_sequence_xml (Config.mk 2 true true true true true true)
        [["0", "1", "2", "3", "4", "5", "6"]] (fun _ => some 1) (fun _ => "v")
        (some ["a"]) (fun _ _ => 0) (fun _ _ => 0) (fun _ => 0) (fun _ _ => 0)
        (fun _ _ => 0) (fun _ _ => 0) = Except.ok doc ∧
      ∀ g ∈ doc.groups,
        (g.groupName = "group1" → ∀ e ∈ g.entries, e.args.length = 2) ∧
        (g.groupName = "group_soil" → g.entries.length = 2 ∧
          ∀ e ∈ g.entries, e.args.length = ((some ["a"]).getD []).length) :=
  ⟨_, rfl, series_lengths (Config.mk 2 true true true true true true)
    [["0", "1", "2", "3", "4", "5", "6"]] (fun _ => some 1) (fun _ => "v")
    (some ["a"]) (fun _ _ => 0) (fun _ _ => 0) (fun _ => 0) (fun _ _ => 0)
    (fun _ _ => 0) (fun _ _ => 0) _ rfl⟩

/-- C3 witness: with multi-soil on and two discovered variants the offset is
their count. -/
theorem offset_policy_witness :
    compute_offset true (some ["a", "b"]) =
      if true = true ∧ 0 < ((some ["a", "b"]).getD []).length
      then ((some ["a", "b"]).getD []).length else 0 :=
  offset_policy true (some ["a", "b"])

/-- C4 witness: the scenario instantiated at one concrete float
formatting. -/
theorem scenario_multisoil_offset_witness :
    ∃ doc, create_sequence_xml (Config.mk 1 false false false true false true)
        [["0"], ["0"]] (fun _ => none) (fun _ => "x") (some ["a", "b", "c"])
        (fun _ _ => 0) (fun _ _ => 0) (fun _ => 0) (fun _ _ => 0)
        (fun _ _ => 0) (fun _ _ => 0) = Except.ok doc ∧
      doc.groups.map SeqGroup.groupName = ["group1", "group_soil"] ∧
      (doc.groups.getD 0 (SeqGroup.mk ("") [])).entries.map Entry.propertyName =
        ["Coeff_diff.Surfaces.LambertianMultiFunctions.LambertianMulti[3].Lambertian.ProspectExternalModule.ProspectExternParameters.Cab",
         "Coeff_diff.Surfaces.LambertianMultiFunctions.LambertianMulti[4].Lambertian.ProspectExternalModule.ProspectExternParameters.Cab"] ∧
      (doc.groups.getD 1 (SeqGroup.mk ("") [])).entries =
        [Entry.mk ["soil_a", "soil_b", "soil_c"]
          ("Maket.Soil.OpticalPropertyLink.ident") ("enumerate"),
         Entry.mk ["0", "1", "2"]
          ("Maket.Soil.OpticalPropertyLink.indexFctPhase") ("enumerate")] :=
  scenario_multisoil_offset (fun _ => "x")
